import Mathlib

/-!
Shallow embedding of the attendance-tracker single-page application
(`src/App.js`).  The arithmetic of the app (JavaScript numbers applied to
integer counts) is embedded over `ℚ`; results that the source produces with
`Math.ceil` are embedded as `ℤ`.  Division by zero follows the Lean
convention `x / 0 = 0`; a separate `Option`-valued variant
(`calculateProjectionChecked`) makes every division that the source actually
evaluates explicit, so that reaching a zero denominator is observable.
-/

namespace AttendanceTracker

/-- Embeds `calculatePercentage` (App.js lines 74-77):
`if (!conducted) return 0; return (present / conducted) * 100;`.
For numeric inputs, `!conducted` is true exactly when `conducted` is `0`. -/
def calculatePercentage (present conducted : ℚ) : ℚ :=
  if conducted = 0 then 0 else (present / conducted) * 100

/-- Embeds `calculateProjection` (App.js lines 79-84):
`const targetDecimal = target / 100;
 if (conducted > 0 && (present / conducted) >= targetDecimal) return 0;
 const needed = Math.ceil((targetDecimal * conducted - present) / (1 - targetDecimal));
 return needed > 0 ? needed : 0;`
The `&&` short-circuits, so `present / conducted` is only evaluated when
`conducted > 0`.  Every value the source returns is an integer (`0` or a
`Math.ceil` result), so the result type is `ℤ`. -/
def calculateProjection (present conducted target : ℚ) : ℤ :=
  let targetDecimal := target / 100
  if 0 < conducted ∧ targetDecimal ≤ present / conducted then 0
  else
    let needed : ℤ := ⌈(targetDecimal * conducted - present) / (1 - targetDecimal)⌉
    if 0 < needed then needed else 0

/-- Rational division that records, instead of silently absorbing, a zero
denominator: `none` exactly when the divisor is `0`. -/
def divChecked (a b : ℚ) : Option ℚ :=
  if b = 0 then none else some (a / b)

/-- `calculateProjection` with the one division the else-branch evaluates made
explicit through `divChecked`: the result is `none` exactly when the source
divides by zero there (JavaScript would produce `Infinity`/`NaN` rather than a
well-defined non-negative integer).  The guard division `present / conducted`
is only reached under `conducted > 0` thanks to `&&` short-circuiting, and
`target / 100` has a fixed non-zero denominator, so neither needs checking. -/
def calculateProjectionChecked (present conducted target : ℚ) : Option ℤ :=
  let targetDecimal := target / 100
  if 0 < conducted ∧ targetDecimal ≤ present / conducted then some 0
  else
    match divChecked (targetDecimal * conducted - present) (1 - targetDecimal) with
    | none => none
    | some q => some (if 0 < ⌈q⌉ then ⌈q⌉ else 0)

/-- A stored subject record (App.js state `subjects`; record shape
`{ name, type, conducted, present }` plus the store-assigned `id`).  The
numeric fields are `Option ℕ` so that a record whose field is missing (and
hence read as `undefined`, a falsy value that `s.conducted || 0` replaces by
`0`) is representable. -/
structure SubjectRecord where
  id : String
  name : String
  type : String
  conducted : Option ℕ
  present : Option ℕ

/-- Embeds the JavaScript read `s.field || 0`: a missing (or zero, the only
falsy natural) numeric field contributes `0`. -/
def orZero (x : Option ℕ) : ℕ := x.getD 0

/-- The derived `summary` value (App.js lines 86-91). -/
structure Summary where
  totalConducted : ℕ
  totalPresent : ℕ
  overallPercentage : ℚ

/-- Embeds the `summary` computation (App.js lines 86-91):
`totalConducted = subjects.reduce((sum, s) => sum + (s.conducted || 0), 0)`,
likewise `totalPresent`, and
`overallPercentage = calculatePercentage(totalPresent, totalConducted)`. -/
def summary (subjects : List SubjectRecord) : Summary :=
  let totalConducted := subjects.foldl (fun sum s => sum + orZero s.conducted) 0
  let totalPresent := subjects.foldl (fun sum s => sum + orZero s.present) 0
  { totalConducted := totalConducted
    totalPresent := totalPresent
    overallPercentage := calculatePercentage totalPresent totalConducted }

/-- Embeds JavaScript `String.prototype.trim()`: remove whitespace from both
ends of the string.  Defined structurally over the character list so that it
evaluates inside the kernel (Lean's built-in `String.trim` computes the same
characters through `Substring` bookkeeping). -/
def jsTrim (s : String) : String :=
  ⟨((s.data.dropWhile Char.isWhitespace).reverse.dropWhile Char.isWhitespace).reverse⟩

/-- The document written by `handleAddSubject` (App.js lines 98-103). -/
structure NewSubjectDoc where
  name : String
  type : String
  conducted : ℕ
  present : ℕ
  deriving DecidableEq

/-- Embeds the store-write decision of `handleAddSubject` (App.js lines
94-108): `if (!newSubjectName.trim() ...) return;` then
`addDoc(..., { name: newSubjectName.trim(), type: newSubjectType.trim(),
conducted: 0, present: 0 })`.  `none` means no document is created. -/
def handleAddSubject (newSubjectName newSubjectType : String) : Option NewSubjectDoc :=
  if jsTrim newSubjectName = "" then none
  else some { name := jsTrim newSubjectName, type := jsTrim newSubjectType,
              conducted := 0, present := 0 }

/-- Value of a run of decimal digits, most significant first. -/
def digitsVal (cs : List Char) : ℕ :=
  cs.foldl (fun a c => a * 10 + (c.toNat - 48)) 0

/-- Embeds JavaScript `parseInt(value, 10)`: skip leading whitespace, read an
optional sign, then the longest run of decimal digits; `none` (JavaScript
`NaN`) when that run is empty.  Trailing non-digit characters are ignored. -/
def parseIntJS (s : String) : Option ℤ :=
  let cs := s.data.dropWhile Char.isWhitespace
  match cs with
  | '-' :: rest =>
      let ds := rest.takeWhile Char.isDigit
      if ds.isEmpty then none else some (-(digitsVal ds : ℤ))
  | '+' :: rest =>
      let ds := rest.takeWhile Char.isDigit
      if ds.isEmpty then none else some (digitsVal ds : ℤ)
  | _ =>
      let ds := cs.takeWhile Char.isDigit
      if ds.isEmpty then none else some (digitsVal ds : ℤ)

/-- Embeds the store-write decision of `handleUpdateSubject` (App.js lines
110-117): `const numericValue = parseInt(value, 10);
if (isNaN(numericValue) || numericValue < 0) return;` then the field is set to
`numericValue`.  `some n` is the value written to the `conducted` or `present`
field; `none` means the store state is left unchanged. -/
def handleUpdateSubject (value : String) : Option ℤ :=
  match parseIntJS value with
  | none => none
  | some n => if n < 0 then none else some n

/-- Embeds the per-subject Absent cell (App.js lines 199 and 206):
`const absent = s.conducted - s.present; ... {absent < 0 ? 0 : absent}`,
on a record whose numeric fields hold the values `conducted` and `present`. -/
def subjectAbsentCell (conducted present : ℤ) : ℤ :=
  let absent := conducted - present
  if absent < 0 then 0 else absent

/-- Embeds the Overall Absent cell (App.js line 217):
`{summary.totalConducted - summary.totalPresent}` — rendered with no clamp. -/
def overallAbsentCell (subjects : List SubjectRecord) : ℤ :=
  ((summary subjects).totalConducted : ℤ) - ((summary subjects).totalPresent : ℤ)

/-- Model of JavaScript `Number.prototype.toFixed(2)` on the (non-negative)
rationals this app formats: the multiple of `1/100` nearest to `q` (ties
toward the larger, as ECMA-262 picks the larger candidate), rendered with
exactly two fraction digits. -/
def toFixed2 (q : ℚ) : String :=
  let n : ℤ := ⌊q * 100 + 1 / 2⌋
  toString (n / 100) ++ "." ++ (if n % 100 < 10 then "0" else "") ++ toString (n % 100)

/-- The congratulation sentence of `handleGetAdvice` (App.js line 135). -/
def congratsSentence (target : ℕ) : String :=
  "Great job! You've met your " ++ toString target ++
    "% target. Keep up the consistent effort."

/-- The classes-needed sentence of `handleGetAdvice` (App.js line 137). -/
def neededSentence (target : ℕ) (needed : ℤ) : String :=
  "To reach your " ++ toString target ++ "% goal, you need to attend the next " ++
    toString needed ++ " classes without fail. "

/-- The commitment warning appended by `handleGetAdvice` (App.js line 141). -/
def commitmentWarning (futureCommitments : String) : String :=
  "\nRemember to account for your upcoming commitment: \"" ++ futureCommitments ++
    "\". This might require extra focus on other classes to maintain your percentage."

/-- The generic reminder appended by `handleGetAdvice` (App.js line 143). -/
def genericReminder : String :=
  "\nPrioritize your upcoming classes and plan your schedule to avoid any unnecessary absences."

/-- The header of the advice message (App.js line 133):
`Your current overall attendance is ${overallPercentage.toFixed(2)}%. `. -/
def adviceHeader (overallPercentage : ℚ) : String :=
  "Your current overall attendance is " ++ toFixed2 overallPercentage ++ "%. "

/-- Embeds `handleGetAdvice` (App.js lines 129-146): starting from the current
summary, the chosen target percentage and the free-text commitments field, it
builds the advice string by appending, to the percentage header, the
congratulation sentence when `overallPercentage >= targetAdvicePercentage` and
otherwise the classes-needed sentence (with
`calculateProjection(totalPresent, totalConducted, targetAdvicePercentage)`),
and then the commitment warning when `futureCommitments.trim()` is non-empty
and otherwise the generic reminder. -/
def handleGetAdvice (s : Summary) (targetAdvicePercentage : ℕ)
    (futureCommitments : String) : String :=
  let needed := calculateProjection s.totalPresent s.totalConducted targetAdvicePercentage
  let adviceMessage := adviceHeader s.overallPercentage
  let adviceMessage := adviceMessage ++
    (if (targetAdvicePercentage : ℚ) ≤ s.overallPercentage then
        congratsSentence targetAdvicePercentage
      else neededSentence targetAdvicePercentage needed)
  adviceMessage ++
    (if jsTrim futureCommitments ≠ "" then commitmentWarning futureCommitments
      else genericReminder)

/-! ### Helper lemmas -/

/-- Branch equation: when the goal-already-met guard holds. -/
lemma calculateProjection_met (present conducted target : ℚ)
    (h : 0 < conducted ∧ target / 100 ≤ present / conducted) :
    calculateProjection present conducted target = 0 := by
  simp only [calculateProjection]
  rw [if_pos h]

/-- Branch equation: when the goal-already-met guard fails. -/
lemma calculateProjection_unmet (present conducted target : ℚ)
    (h : ¬ (0 < conducted ∧ target / 100 ≤ present / conducted)) :
    calculateProjection present conducted target =
      if 0 < ⌈(target / 100 * conducted - present) / (1 - target / 100)⌉ then
        ⌈(target / 100 * conducted - present) / (1 - target / 100)⌉
      else 0 := by
  simp only [calculateProjection]
  rw [if_neg h]

/-- The clamp `needed > 0 ? needed : 0` is monotone. -/
lemma clampPos_mono {a b : ℤ} (h : a ≤ b) :
    (if 0 < a then a else 0) ≤ (if 0 < b then b else 0) := by
  split <;> split <;> omega

/-- The projection returned by the source is never negative. -/
lemma calculateProjection_nonneg (present conducted target : ℚ) :
    0 ≤ calculateProjection present conducted target := by
  by_cases h : 0 < conducted ∧ target / 100 ≤ present / conducted
  · rw [calculateProjection_met _ _ _ h]
  · rw [calculateProjection_unmet _ _ _ h]
    split <;> omega

/-- Concrete evaluation: `calculateProjection(10, 20, 75) = 20`. -/
lemma calculateProjection_10_20_75 : calculateProjection 10 20 75 = 20 := by
  rw [calculateProjection_unmet 10 20 75 (by norm_num)]
  have h : ((75 : ℚ) / 100 * 20 - 10) / (1 - 75 / 100) = ((20 : ℤ) : ℚ) := by norm_num
  rw [h, Int.ceil_intCast]
  norm_num

/-- Concrete evaluation: `calculateProjection(0, 0, 75) = 0`. -/
lemma calculateProjection_0_0_75 : calculateProjection 0 0 75 = 0 := by
  rw [calculateProjection_unmet 0 0 75 (by norm_num)]
  norm_num

/-- A left fold of `+` over a list starting at `0` is the sum of the images. -/
lemma foldl_add_eq_sum (l : List SubjectRecord) (f : SubjectRecord → ℕ) :
    l.foldl (fun sum s => sum + f s) 0 = (l.map f).sum := by
  rw [List.sum_eq_foldl, List.foldl_map]

/-! ### C3 -/

/-- C3: for every non-negative integer `present` and `conducted` and every
integer `target`, `calculateProjection(present, conducted, target)` never
returns a negative value (the final `needed > 0 ? needed : 0` clamp, and the
`return 0` branch, make every result non-negative). -/
theorem C3_calculateProjection_never_negative (present conducted : ℕ) (target : ℤ) :
    0 ≤ calculateProjection (present : ℚ) (conducted : ℚ) (target : ℚ) :=
  calculateProjection_nonneg _ _ _

/-! ### C4 -/

/-- C4: for `0 ≤ present ≤ conducted`, `calculatePercentage(present, conducted)`
returns `(present / conducted) * 100`, which lies in `[0, 100]`; and for every
`present`, `calculatePercentage(present, 0) = 0` (defined, not an error). -/
theorem C4_calculatePercentage_spec (present conducted : ℕ) (h : present ≤ conducted) :
    (calculatePercentage (present : ℚ) (conducted : ℚ) =
        ((present : ℚ) / (conducted : ℚ)) * 100
      ∧ 0 ≤ calculatePercentage (present : ℚ) (conducted : ℚ)
      ∧ calculatePercentage (present : ℚ) (conducted : ℚ) ≤ 100)
    ∧ calculatePercentage (present : ℚ) 0 = 0 := by
  constructor
  · rcases Nat.eq_zero_or_pos conducted with hc | hc
    · subst hc
      have hp : present = 0 := Nat.le_zero.mp h
      subst hp
      simp [calculatePercentage]
    · have hcQ : (0 : ℚ) < (conducted : ℚ) := by exact_mod_cast hc
      have hne : (conducted : ℚ) ≠ 0 := ne_of_gt hcQ
      have heq : calculatePercentage (present : ℚ) (conducted : ℚ) =
          ((present : ℚ) / (conducted : ℚ)) * 100 := by
        simp [calculatePercentage, hne]
      refine ⟨heq, ?_, ?_⟩
      · rw [heq]
        have : (0 : ℚ) ≤ (present : ℚ) / (conducted : ℚ) :=
          div_nonneg (by positivity) (le_of_lt hcQ)
        linarith
      · rw [heq]
        have hle : (present : ℚ) / (conducted : ℚ) ≤ 1 := by
          rw [div_le_one hcQ]
          exact_mod_cast h
        linarith
  · simp [calculatePercentage]

/-- Witness for C4, at `present = 30`, `conducted = 40` (Scenario A). -/
theorem C4_witness :
    (30 : ℕ) ≤ 40
    ∧ calculatePercentage ((30 : ℕ) : ℚ) ((40 : ℕ) : ℚ) = (((30 : ℕ) : ℚ) / ((40 : ℕ) : ℚ)) * 100
    ∧ calculatePercentage ((30 : ℕ) : ℚ) ((40 : ℕ) : ℚ) = 75 := by
  have h := C4_calculatePercentage_spec 30 40 (by norm_num)
  exact ⟨by norm_num, h.1.1, by rw [h.1.1]; norm_num⟩

/-! ### C5 -/

/-- C5: the summary aggregator returns `totalConducted` and `totalPresent`
equal to the sums of the `conducted` and `present` fields (a missing numeric
field contributing `0` via `s.field || 0`), and
`overallPercentage = calculatePercentage(totalPresent, totalConducted)`; on
the empty collection the summary is `{0, 0, 0%}`. -/
theorem C5_summary_spec (subjects : List SubjectRecord) :
    (summary subjects).totalConducted = (subjects.map fun s => orZero s.conducted).sum
    ∧ (summary subjects).totalPresent = (subjects.map fun s => orZero s.present).sum
    ∧ (summary subjects).overallPercentage =
        calculatePercentage ((summary subjects).totalPresent : ℚ)
          ((summary subjects).totalConducted : ℚ)
    ∧ summary [] = ⟨0, 0, 0⟩ := by
  refine ⟨foldl_add_eq_sum _ _, foldl_add_eq_sum _ _, rfl, ?_⟩
  simp [summary, calculatePercentage]

/-! ### C7 -/

/-- C7: an add-subject submission whose name is non-empty after trimming
creates a record whose `name` is the trimmed user-supplied name and whose
`conducted` and `present` are `0`; if the trimmed name is empty, no record is
created. -/
theorem C7_handleAddSubject_spec (newSubjectName newSubjectType : String) :
    (jsTrim newSubjectName ≠ "" →
      handleAddSubject newSubjectName newSubjectType =
        some ⟨jsTrim newSubjectName, jsTrim newSubjectType, 0, 0⟩)
    ∧ (jsTrim newSubjectName = "" →
      handleAddSubject newSubjectName newSubjectType = none) := by
  constructor
  · intro h
    simp [handleAddSubject, h]
  · intro h
    simp [handleAddSubject, h]

/-- Witness for C7, at name `"  Physics  "` (Scenario D): the stored record is
`{ name := "Physics", type := "Lecture", conducted := 0, present := 0 }`. -/
theorem C7_witness :
    jsTrim "  Physics  " ≠ ""
    ∧ handleAddSubject "  Physics  " "Lecture" = some ⟨"Physics", "Lecture", 0, 0⟩ := by
  have h := (C7_handleAddSubject_spec "  Physics  " "Lecture").1 (by decide)
  exact ⟨by decide, by rw [h]; decide⟩

/-! ### C8 -/

/-- C8: at `target = 100` the projection formula is unguarded: whenever the
goal-already-met branch is not taken (`conducted = 0`, or
`present / conducted < 1`), evaluation reaches the division by
`1 - target/100 = 0`, so the checked evaluation yields no well-defined result. -/
theorem C8_target_100_division_by_zero (present conducted : ℕ)
    (h : conducted = 0 ∨ (present : ℚ) / (conducted : ℚ) < 1) :
    calculateProjectionChecked (present : ℚ) (conducted : ℚ) 100 = none := by
  have hbr : ¬ (0 < (conducted : ℚ) ∧ (100 : ℚ) / 100 ≤ (present : ℚ) / (conducted : ℚ)) := by
    rcases h with h | h
    · subst h
      intro hc
      exact absurd hc.1 (by norm_num)
    · intro hc
      have : (1 : ℚ) ≤ (present : ℚ) / (conducted : ℚ) := by
        have := hc.2
        norm_num at this
        exact this
      linarith
  simp only [calculateProjectionChecked]
  rw [if_neg hbr]
  have hz : (1 : ℚ) - 100 / 100 = 0 := by norm_num
  rw [hz]
  simp [divChecked]

/-- Witness for C8, at `present = 10`, `conducted = 20`: the ratio `1/2 < 1`,
and the checked projection at target `100` is undefined. -/
theorem C8_witness :
    (((10 : ℕ) : ℚ) / ((20 : ℕ) : ℚ) < 1)
    ∧ calculateProjectionChecked ((10 : ℕ) : ℚ) ((20 : ℕ) : ℚ) 100 = none := by
  refine ⟨by norm_num, C8_target_100_division_by_zero 10 20 (Or.inr (by norm_num))⟩

/-! ### C9 -/

/-- C9 counterexample: for the stored record `⟨"id1", "Math", "Lecture", 3, 5⟩`
(violating `present ≤ conducted` with `present = 5 > 3 = conducted`), the
Overall Absent cell (App.js line 217), computed as
`totalConducted - totalPresent` with no clamp, renders `-2`: it is not true
that every displayed absent count is clamped to zero. -/
theorem C9_counterexample :
    (3 : ℕ) < 5
    ∧ overallAbsentCell [⟨"id1", "Math", "Lecture", some 3, some 5⟩] = -2 := by
  constructor
  · decide
  · decide

/-- C9 amended: the per-subject absent cell is clamped at zero — in particular
it displays `0` whenever `present > conducted` — while the Overall Absent cell
is rendered without a clamp (see the counterexample). -/
theorem C9_subjectAbsentCell_clamped (conducted present : ℤ) :
    0 ≤ subjectAbsentCell conducted present
    ∧ (conducted < present → subjectAbsentCell conducted present = 0) := by
  simp only [subjectAbsentCell]
  constructor
  · split <;> omega
  · intro h
    rw [if_pos (by omega)]

/-- Witness for C9's amended theorem, at `conducted = 3`, `present = 5`. -/
theorem C9_witness : (3 : ℤ) < 5 ∧ subjectAbsentCell 3 5 = 0 :=
  ⟨by decide, (C9_subjectAbsentCell_clamped 3 5).2 (by decide)⟩

/-! ### C10 -/

/-- C10: every write this application issues to a `conducted` or `present`
field is a non-negative integer: `handleUpdateSubject` writes nothing when
`parseInt` yields `NaN` or a negative value, and `handleAddSubject` always
initializes both counts to `0`. -/
theorem C10_writes_nonneg (value : String) :
    (∀ n : ℤ, handleUpdateSubject value = some n → 0 ≤ n)
    ∧ (parseIntJS value = none → handleUpdateSubject value = none)
    ∧ (∀ n : ℤ, parseIntJS value = some n → n < 0 → handleUpdateSubject value = none)
    ∧ (∀ name ty : String, ∀ d : NewSubjectDoc,
        handleAddSubject name ty = some d → d.conducted = 0 ∧ d.present = 0) := by
  refine ⟨?_, ?_, ?_, ?_⟩
  · intro n h
    unfold handleUpdateSubject at h
    split at h
    · exact absurd h (by simp)
    · split at h
      · exact absurd h (by simp)
      · rw [Option.some.injEq] at h
        omega
  · intro h
    unfold handleUpdateSubject
    rw [h]
  · intro n h hneg
    unfold handleUpdateSubject
    rw [h]
    simp only [if_pos hneg]
  · intro name ty d h
    unfold handleAddSubject at h
    split at h
    · exact absurd h (by simp)
    · rw [Option.some.injEq] at h
      rw [← h]
      exact ⟨rfl, rfl⟩

/-- Witness for C10, at input string `"-5"`: it parses to `-5 < 0` and no
write happens. -/
theorem C10_witness : parseIntJS "-5" = some (-5) ∧ handleUpdateSubject "-5" = none :=
  ⟨by decide, (C10_writes_nonneg "-5").2.2.1 (-5) (by decide) (by decide)⟩

/-! ### C2 -/

/-- Concrete evaluation: `calculateProjection(5, 0, 200) = 5`. -/
lemma calculateProjection_5_0_200 : calculateProjection 5 0 200 = 5 := by
  rw [calculateProjection_unmet 5 0 200 (by norm_num)]
  have h : ((200 : ℚ) / 100 * 0 - 5) / (1 - 200 / 100) = ((5 : ℤ) : ℚ) := by norm_num
  rw [h, Int.ceil_intCast]
  norm_num

/-- Concrete evaluation: `calculateProjection(0, 0, 200) = 0`. -/
lemma calculateProjection_0_0_200 : calculateProjection 0 0 200 = 0 := by
  rw [calculateProjection_unmet 0 0 200 (by norm_num)]
  norm_num

/-- C2 counterexample: at `conducted = 0`, `target = 200`, raising `present`
from `0` to `5` raises the projection from `0` to `5`, so the projection is
not monotonically non-increasing in `present` for every fixed `conducted` and
`target`. -/
theorem C2_counterexample :
    calculateProjection 0 0 200 = 0
    ∧ calculateProjection 5 0 200 = 5
    ∧ ¬ (calculateProjection 5 0 200 ≤ calculateProjection 0 0 200) := by
  refine ⟨calculateProjection_0_0_200, calculateProjection_5_0_200, ?_⟩
  rw [calculateProjection_0_0_200, calculateProjection_5_0_200]
  norm_num

/-- With `conducted = 0` and any target `≤ 100`, the source returns `0`:
the guard needs `conducted > 0`, and the ceiling of the non-positive (or
zero-denominator) fraction is clamped away. -/
lemma calculateProjection_conducted_zero (p : ℕ) (target : ℤ) (htarget : target ≤ 100) :
    calculateProjection (p : ℚ) ((0 : ℕ) : ℚ) (target : ℚ) = 0 := by
  have hT1 : (target : ℚ) / 100 ≤ 1 := by
    rw [div_le_one (by norm_num : (0 : ℚ) < 100)]
    exact_mod_cast htarget
  rw [Nat.cast_zero]
  rw [calculateProjection_unmet _ _ _ (fun hcon => lt_irrefl 0 hcon.1)]
  have hnum : (target : ℚ) / 100 * 0 - (p : ℚ) = -(p : ℚ) := by ring
  rw [hnum]
  rcases eq_or_lt_of_le hT1 with heq | hlt
  · have hden : (1 : ℚ) - (target : ℚ) / 100 = 0 := by rw [heq]; norm_num
    rw [hden, div_zero]
    norm_num
  · have hx : (-(p : ℚ)) / (1 - (target : ℚ) / 100) ≤ 0 := by
      rw [neg_div]
      exact neg_nonpos.mpr (div_nonneg (Nat.cast_nonneg p) (by linarith))
    have hceil : ⌈(-(p : ℚ)) / (1 - (target : ℚ) / 100)⌉ ≤ (0 : ℤ) :=
      Int.ceil_le.mpr (by exact_mod_cast hx)
    rw [if_neg (by omega)]

/-- C2 amended: for every fixed `conducted` and every integer target
`≤ 100` (every percentage the formula is meant for), the projection is
monotonically non-increasing as `present` increases. -/
theorem C2_calculateProjection_antitone (conducted : ℕ) (target : ℤ)
    (htarget : target ≤ 100) (p1 p2 : ℕ) (hp : p1 ≤ p2) :
    calculateProjection (p2 : ℚ) (conducted : ℚ) (target : ℚ) ≤
      calculateProjection (p1 : ℚ) (conducted : ℚ) (target : ℚ) := by
  have hT1 : (target : ℚ) / 100 ≤ 1 := by
    rw [div_le_one (by norm_num : (0 : ℚ) < 100)]
    exact_mod_cast htarget
  rcases Nat.eq_zero_or_pos conducted with hc | hc
  · subst hc
    rw [calculateProjection_conducted_zero p1 target htarget,
      calculateProjection_conducted_zero p2 target htarget]
  · have hcQ : (0 : ℚ) < (conducted : ℚ) := by exact_mod_cast hc
    by_cases hbr : (target : ℚ) / 100 ≤ (p2 : ℚ) / (conducted : ℚ)
    · rw [calculateProjection_met _ _ _ ⟨hcQ, hbr⟩]
      exact calculateProjection_nonneg _ _ _
    · have hbr1 : ¬ ((target : ℚ) / 100 ≤ (p1 : ℚ) / (conducted : ℚ)) := by
        intro h1
        apply hbr
        refine le_trans h1 ?_
        rw [div_le_div_right hcQ]
        exact_mod_cast hp
      rw [calculateProjection_unmet _ _ _ (fun hcon => hbr hcon.2),
          calculateProjection_unmet _ _ _ (fun hcon => hbr1 hcon.2)]
      apply clampPos_mono
      apply Int.ceil_mono
      rcases eq_or_lt_of_le hT1 with heq | hlt
      · have hden : (1 : ℚ) - (target : ℚ) / 100 = 0 := by rw [heq]; norm_num
        rw [hden, div_zero, div_zero]
      · rw [div_le_div_right (by linarith : (0 : ℚ) < 1 - (target : ℚ) / 100)]
        have : (p1 : ℚ) ≤ (p2 : ℚ) := by exact_mod_cast hp
        linarith

/-- Witness for C2's amended theorem, at `conducted = 20`, `target = 75`,
`present` raised from `10` to `15`. -/
theorem C2_witness :
    (75 : ℤ) ≤ 100 ∧ (10 : ℕ) ≤ 15
    ∧ calculateProjection ((15 : ℕ) : ℚ) ((20 : ℕ) : ℚ) ((75 : ℤ) : ℚ) ≤
        calculateProjection ((10 : ℕ) : ℚ) ((20 : ℕ) : ℚ) ((75 : ℤ) : ℚ) :=
  ⟨by norm_num, by norm_num,
    C2_calculateProjection_antitone 20 75 (by norm_num) 10 15 (by norm_num)⟩

/-! ### C1 -/

/-- C1 counterexample: at `present = 0, conducted = 0, target = 75` the source
returns `0` (as the claim itself records), but `0` is not the minimum
non-negative integer `n` with `(present + n) / (conducted + n) ≥ target / 100`:
`n = 0` fails the inequality (the ratio is `0/0`, which is not `≥ 3/4`), while
`n = 1` satisfies it.  The claim as stated therefore fails at this input. -/
theorem C1_counterexample :
    calculateProjection 0 0 75 = 0
    ∧ ¬ IsLeast {n : ℤ | 0 ≤ n ∧ (75 : ℚ) / 100 ≤ ((0 : ℚ) + (n : ℚ)) / ((0 : ℚ) + (n : ℚ))}
        (calculateProjection 0 0 75)
    ∧ (1 : ℤ) ∈ {n : ℤ | 0 ≤ n ∧ (75 : ℚ) / 100 ≤ ((0 : ℚ) + (n : ℚ)) / ((0 : ℚ) + (n : ℚ))} := by
  refine ⟨calculateProjection_0_0_75, ?_, ?_⟩
  · rw [calculateProjection_0_0_75]
    intro hleast
    have h := hleast.1.2
    norm_num at h
  · constructor
    · norm_num
    · norm_num

/-- C1 amended: for `present ≤ conducted` and `0 ≤ target < 100`, when
`conducted > 0` the source returns the least non-negative integer `n` such
that `(present + n) / (conducted + n) ≥ target / 100` (every additional class
both conducted and attended); when `conducted = 0` (hence `present = 0`) it
returns `0` (Scenario C: nothing conducted yet, zero classes owed). -/
theorem C1_calculateProjection_minimal (present conducted : ℕ) (target : ℤ)
    (hpc : present ≤ conducted) (ht0 : 0 ≤ target) (ht : target < 100) :
    (0 < conducted →
      IsLeast {n : ℤ | 0 ≤ n ∧
          (target : ℚ) / 100 ≤ ((present : ℚ) + (n : ℚ)) / ((conducted : ℚ) + (n : ℚ))}
        (calculateProjection (present : ℚ) (conducted : ℚ) (target : ℚ)))
    ∧ (conducted = 0 →
        calculateProjection (present : ℚ) (conducted : ℚ) (target : ℚ) = 0) := by
  have hT1 : (target : ℚ) / 100 < 1 := by
    rw [div_lt_one (by norm_num : (0 : ℚ) < 100)]
    exact_mod_cast ht
  constructor
  · intro hc
    have hcQ : (0 : ℚ) < (conducted : ℚ) := by exact_mod_cast hc
    by_cases hbr : (target : ℚ) / 100 ≤ (present : ℚ) / (conducted : ℚ)
    · rw [calculateProjection_met _ _ _ ⟨hcQ, hbr⟩]
      constructor
      · simp only [Set.mem_setOf_eq, Int.cast_zero, add_zero]
        exact ⟨le_refl 0, hbr⟩
      · rintro n ⟨hn0, _⟩
        exact hn0
    · have hratio : (present : ℚ) / (conducted : ℚ) < (target : ℚ) / 100 := not_le.mp hbr
      have hnum : 0 < (target : ℚ) / 100 * (conducted : ℚ) - (present : ℚ) := by
        have := (div_lt_iff hcQ).mp hratio
        linarith
      have hden : 0 < 1 - (target : ℚ) / 100 := by linarith
      set x : ℚ :=
        ((target : ℚ) / 100 * (conducted : ℚ) - (present : ℚ)) / (1 - (target : ℚ) / 100)
        with hx
      have hxpos : 0 < x := div_pos hnum hden
      have hceilpos : 0 < ⌈x⌉ := Int.ceil_pos.mpr hxpos
      have heval : calculateProjection (present : ℚ) (conducted : ℚ) (target : ℚ) = ⌈x⌉ := by
        rw [calculateProjection_unmet _ _ _ (fun hcon => hbr hcon.2), ← hx,
          if_pos hceilpos]
      rw [heval]
      constructor
      · simp only [Set.mem_setOf_eq]
        refine ⟨le_of_lt hceilpos, ?_⟩
        have hNnn : (0 : ℚ) ≤ ((⌈x⌉ : ℤ) : ℚ) := by exact_mod_cast le_of_lt hceilpos
        have hNpos : (0 : ℚ) < (conducted : ℚ) + ((⌈x⌉ : ℤ) : ℚ) := by linarith
        rw [le_div_iff hNpos]
        have hxle : x ≤ ((⌈x⌉ : ℤ) : ℚ) := Int.le_ceil x
        have h1 : (target : ℚ) / 100 * (conducted : ℚ) - (present : ℚ) ≤
            ((⌈x⌉ : ℤ) : ℚ) * (1 - (target : ℚ) / 100) := by
          rw [hx] at hxle
          exact (div_le_iff hden).mp hxle
        nlinarith [h1]
      · rintro m ⟨hm0, hmle⟩
        have hmQ : (0 : ℚ) ≤ ((m : ℤ) : ℚ) := by exact_mod_cast hm0
        have hMpos : (0 : ℚ) < (conducted : ℚ) + ((m : ℤ) : ℚ) := by linarith
        rw [le_div_iff hMpos] at hmle
        have hxm : x ≤ ((m : ℤ) : ℚ) := by
          rw [hx, div_le_iff hden]
          nlinarith [hmle]
        exact Int.ceil_le.mpr hxm
  · intro hc
    subst hc
    have hp : present = 0 := Nat.le_zero.mp hpc
    subst hp
    exact calculateProjection_conducted_zero 0 target (le_of_lt ht)

/-- Witness for C1's amended theorem, at `present = 10`, `conducted = 20`,
`target = 75` (Scenario B): the projection evaluates to `20`, the least
non-negative integer `n` with `(10 + n) / (20 + n) ≥ 75/100`. -/
theorem C1_witness :
    (10 : ℕ) ≤ 20 ∧ (0 : ℤ) ≤ 75 ∧ (75 : ℤ) < 100
    ∧ calculateProjection ((10 : ℕ) : ℚ) ((20 : ℕ) : ℚ) ((75 : ℤ) : ℚ) = 20
    ∧ IsLeast {n : ℤ | 0 ≤ n ∧
        ((75 : ℤ) : ℚ) / 100 ≤ (((10 : ℕ) : ℚ) + (n : ℚ)) / (((20 : ℕ) : ℚ) + (n : ℚ))}
      (calculateProjection ((10 : ℕ) : ℚ) ((20 : ℕ) : ℚ) ((75 : ℤ) : ℚ)) := by
  have hmin := (C1_calculateProjection_minimal 10 20 75 (by norm_num) (by norm_num)
    (by norm_num)).1 (by norm_num)
  have heval : calculateProjection ((10 : ℕ) : ℚ) ((20 : ℕ) : ℚ) ((75 : ℤ) : ℚ) = 20 := by
    have := calculateProjection_10_20_75
    norm_num at this ⊢
    exact this
  exact ⟨by norm_num, by norm_num, by norm_num, heval, hmin⟩

/-! ### C6 -/

/-- If a string's first character is `c`, appending anything keeps it first. -/
lemma data_head?_append (s t : String) (c : Char) (hs : s.data.head? = some c) :
    (s ++ t).data.head? = some c := by
  rw [String.data_append]
  cases hd : s.data with
  | nil => rw [hd] at hs; exact absurd hs (by simp)
  | cons x xs =>
      rw [hd] at hs
      simp only [List.head?_cons, Option.some.injEq] at hs
      subst hs
      simp

/-- The congratulation sentence starts with `G`. -/
lemma congratsSentence_head (target : ℕ) :
    (congratsSentence target).data.head? = some 'G' := by
  unfold congratsSentence
  apply data_head?_append
  apply data_head?_append
  rfl

/-- The classes-needed sentence starts with `T`. -/
lemma neededSentence_head (target : ℕ) (needed : ℤ) :
    (neededSentence target needed).data.head? = some 'T' := by
  unfold neededSentence
  apply data_head?_append
  apply data_head?_append
  apply data_head?_append
  apply data_head?_append
  rfl

/-- String append is left-cancellative. -/
lemma str_append_left_cancel {a b c : String} (h : a ++ b = a ++ c) : b = c := by
  have hd := congrArg String.data h
  rw [String.data_append, String.data_append] at hd
  exact String.ext (List.append_cancel_left hd)

/-- No message continuing the congratulation sentence equals one continuing
the classes-needed sentence: their first characters differ. -/
lemma congrats_append_ne_needed_append (t1 t2 : ℕ) (n : ℤ) (a b : String) :
    congratsSentence t1 ++ a ≠ neededSentence t2 n ++ b := by
  intro h
  have h1 : (congratsSentence t1 ++ a).data.head? = some 'G' :=
    data_head?_append _ _ _ (congratsSentence_head t1)
  rw [h, data_head?_append _ _ _ (neededSentence_head t2 n)] at h1
  exact absurd h1 (by decide)

/-- C6: the advice message always begins with the header reporting the current
overall percentage to two decimal places; it continues with the congratulation
sentence exactly when `overallPercentage ≥ targetPercentage`, and otherwise
with the sentence reporting
`calculateProjection(totalPresent, totalConducted, targetPercentage)` classes
to attend without fail; and it ends with the commitment warning echoing
`futureCommitments` verbatim when that text is non-empty after trimming, and
with the generic reminder otherwise. -/
theorem C6_handleGetAdvice_spec (s : Summary) (target : ℕ) (fc : String) :
    (∃ rest, handleGetAdvice s target fc = adviceHeader s.overallPercentage ++ rest)
    ∧ ((∃ rest, handleGetAdvice s target fc =
          adviceHeader s.overallPercentage ++ (congratsSentence target ++ rest))
        ↔ (target : ℚ) ≤ s.overallPercentage)
    ∧ (¬ (target : ℚ) ≤ s.overallPercentage →
        handleGetAdvice s target fc =
          adviceHeader s.overallPercentage ++
            (neededSentence target
              (calculateProjection s.totalPresent s.totalConducted target) ++
              (if jsTrim fc ≠ "" then commitmentWarning fc else genericReminder)))
    ∧ (jsTrim fc ≠ "" →
        ∃ pre, handleGetAdvice s target fc = pre ++ commitmentWarning fc)
    ∧ (jsTrim fc = "" →
        ∃ pre, handleGetAdvice s target fc = pre ++ genericReminder) := by
  have hunf : handleGetAdvice s target fc =
      (adviceHeader s.overallPercentage ++
        (if (target : ℚ) ≤ s.overallPercentage then congratsSentence target
          else neededSentence target
            (calculateProjection s.totalPresent s.totalConducted target))) ++
        (if jsTrim fc ≠ "" then commitmentWarning fc else genericReminder) := rfl
  by_cases hmet : (target : ℚ) ≤ s.overallPercentage
  · rw [hunf, if_pos hmet]
    refine ⟨⟨_, String.append_assoc _ _ _⟩,
      ⟨fun _ => hmet, fun _ => ⟨_, String.append_assoc _ _ _⟩⟩,
      fun h => absurd hmet h, ?_, ?_⟩
    · intro hfc
      rw [if_pos hfc]
      exact ⟨_, rfl⟩
    · intro hfc
      rw [if_neg (fun hne => hne hfc)]
      exact ⟨_, rfl⟩
  · rw [hunf, if_neg hmet]
    refine ⟨⟨_, String.append_assoc _ _ _⟩, ⟨?_, fun h => absurd h hmet⟩,
      fun _ => String.append_assoc _ _ _, ?_, ?_⟩
    · rintro ⟨rest, hr⟩
      rw [String.append_assoc] at hr
      have := (str_append_left_cancel hr).symm
      exact absurd this (congrats_append_ne_needed_append _ _ _ _ _)
    · intro hfc
      rw [if_pos hfc]
      exact ⟨_, rfl⟩
    · intro hfc
      rw [if_neg (fun hne => hne hfc)]
      exact ⟨_, rfl⟩

/-- Witness for C6, at summary `{totalConducted := 20, totalPresent := 10,
overallPercentage := 50}`, target `75`, empty commitments: the percentage is
below target, so the message is the header followed by the
20-classes-needed sentence and the generic reminder. -/
theorem C6_witness :
    ¬ ((75 : ℕ) : ℚ) ≤ (50 : ℚ)
    ∧ handleGetAdvice ⟨20, 10, 50⟩ 75 "" =
        adviceHeader 50 ++ (neededSentence 75 20 ++ genericReminder) := by
  have h := (C6_handleGetAdvice_spec ⟨20, 10, 50⟩ 75 "").2.2.1 (by norm_num)
  refine ⟨by norm_num, ?_⟩
  rw [h]
  have e1 : (⟨20, 10, 50⟩ : Summary).overallPercentage = 50 := rfl
  have e2 : (⟨20, 10, 50⟩ : Summary).totalPresent = 10 := rfl
  have e3 : (⟨20, 10, 50⟩ : Summary).totalConducted = 20 := rfl
  rw [e1, e2, e3]
  have hproj : calculateProjection ((10 : ℕ) : ℚ) ((20 : ℕ) : ℚ) ((75 : ℕ) : ℚ) = 20 := by
    have := calculateProjection_10_20_75
    norm_num at this ⊢
    exact this
  rw [hproj, if_neg (by decide : ¬ (jsTrim "" ≠ ""))]
